import Mathlib

/-!
Verification development for the Hackbajaj repository.

The two Express metadata servers (the in-memory file server and the
Mongo-backed server with its Mongoose document schema) are embedded
directly from the JavaScript source.  The RAG orchestration core
(chunker, vector index, semantic cache, retriever, answer synthesizer,
resilient gateway) is described only in the repository's design
documents and specification; those components are modelled from the
spec, as marked on each definition.
-/

/-! ## In-memory file server (src/unnamed/part_000) -/

namespace FileServer

/-- Metadata record pushed onto the `documents` array by the upload
handler: `{ id, originalName, mimetype, size, uploadDate }`. -/
structure DocMeta where
  id : String
  originalName : String
  mimetype : String
  size : Nat
  uploadDate : String
deriving Repr, DecidableEq

/-- The multer-parsed `req.file` value available to the upload route. -/
structure UploadedFile where
  filename : String
  originalname : String
  mimetype : String
  size : Nat
deriving Repr, DecidableEq

/-- The in-memory `documents` array (module-level mutable state). -/
abbrev ServerState := List DocMeta

/-- One incoming HTTP request to the file server.  `upload` carries the
optional parsed file and the current timestamp string; `download`
carries the requested id and the result of `fs.existsSync` on the
stored path. -/
inductive Request where
  | upload (f : Option UploadedFile) (now : String)
  | listDocs
  | download (fileId : String) (fsOk : Bool)

/-- Result of running one handler: the new `documents` array and the
HTTP status code sent. -/
structure HandleResult where
  state : ServerState
  status : Nat
deriving Repr, DecidableEq

/-- The three route handlers of the in-memory server.  A missing file
yields 400 and no state change; a successful upload pushes exactly one
metadata record; both GET routes only read the array. -/
def handle (st : ServerState) : Request → HandleResult
  | .upload none _ => ⟨st, 400⟩
  | .upload (some f) now =>
      ⟨st ++ [⟨f.filename, f.originalname, f.mimetype, f.size, now⟩], 201⟩
  | .listDocs => ⟨st, 200⟩
  | .download fid fsOk =>
      match st.find? (fun d => d.id == fid) with
      | none => ⟨st, 404⟩
      | some _ => if fsOk then ⟨st, 200⟩ else ⟨st, 404⟩

/-- Run a sequence of requests against the server state. -/
def runReqs (st : ServerState) : List Request → ServerState
  | [] => st
  | r :: rs => runReqs (handle st r).state rs

end FileServer

/-! ## Mongoose document model (src/unnamed/part_001) -/

namespace MongoModel

/-- A JavaScript value as it appears in the schema declaration and the
upload handler: strings, numbers, the `String` / `Date` constructor
references used as type tags, and the result of the `Date.now()` call. -/
inductive JsValue where
  | str (s : String)
  | num (n : Nat)
  | typeStringCtor
  | typeDateCtor
  | dateNowResult
deriving Repr, DecidableEq

/-- A field declaration of a Mongoose schema: the path name and the
option object attached to it (shorthand `name: String` stands for
`{ type: String }`). -/
structure FieldDecl where
  name : String
  options : List (String × JsValue)
deriving Repr, DecidableEq

/-- Mongoose registers a default for a path only under the
case-sensitive option key "default"; any other key is an ignored,
unrecognized option. -/
def registeredDefault (f : FieldDecl) : Option JsValue :=
  (f.options.find? (fun p => p.1 == "default")).map (fun p => p.2)

/-- The `documentSchema` of src/unnamed/part_001: `originalName` and
`mimetype` are shorthand String fields, and `uploadDate` is declared
as `{ type: Date, Default: Date.now() }` — with a capital-D `Default`
option key. -/
def documentSchema : List FieldDecl :=
  [ ⟨"originalName", [("type", .typeStringCtor)]⟩,
    ⟨"mimetype", [("type", .typeStringCtor)]⟩,
    ⟨"uploadDate", [("type", .typeDateCtor), ("Default", .dateNowResult)]⟩ ]

/-- A persisted document: the stored paths with their values. -/
abbrev MongoDoc := List (String × JsValue)

/-- Mongoose `Model.create` under default strict mode: input paths not
in the schema are dropped; a schema path takes the provided value when
present, otherwise its registered default when one exists, otherwise
it is absent from the stored document. -/
def createDoc (schema : List FieldDecl) (input : List (String × JsValue)) : MongoDoc :=
  schema.filterMap fun f =>
    match input.find? (fun p => p.1 == f.name) with
    | some p => some (f.name, p.2)
    | none => (registeredDefault f).map (fun v => (f.name, v))

/-- The object passed to `Document.create` by the POST /upload handler
of src/server/index.js: originalName, mimetype, and size. -/
def uploadInput (name mt : String) (sz : Nat) : List (String × JsValue) :=
  [("originalName", .str name), ("mimetype", .str mt), ("size", .num sz)]

end MongoModel

/-! ## Mongo-backed metadata server (src/server/index.js) -/

namespace MongoServer

open MongoModel

/-- Body of the GET /documents response: either an error message object
or the document list. -/
inductive DocsBody where
  | message (s : String)
  | docs (l : List MongoDoc)
deriving Repr, DecidableEq

/-- The GET /documents handler of src/server/index.js: when
`Document.find({})` yields an empty array (`!documents.length`) it
responds 404 with message "No file uploaded", otherwise 200 with the
full list. -/
def listDocuments (store : List MongoDoc) : Nat × DocsBody :=
  if store.length = 0 then (404, .message "No file uploaded")
  else (200, .docs store)

end MongoServer

/-! ## Shared vector arithmetic for the RAG core (modelled from the spec) -/

namespace RagCore

/-- Modelled from the spec: embeddings are fixed-dimension numeric
vectors (§3); the numeric field is modelled by the rationals. -/
abbrev Vec := List ℚ

/-- Dot product of two vectors. -/
def dot (u v : Vec) : ℚ := (List.zipWith (fun a b => a * b) u v).sum

/-- Squared Euclidean norm of a vector. -/
def normSq (u : Vec) : ℚ := dot u u

/-- Exact comparison x / sqrt A ≥ y / sqrt B for nonnegative A, B,
by sign analysis and squaring; used to compare cosine similarities
without leaving the rationals. -/
def sqrtFracGE (x A y B : ℚ) : Bool :=
  if 0 ≤ x then
    if 0 ≤ y then decide (y ^ 2 * A ≤ x ^ 2 * B) else true
  else
    if 0 ≤ y then false else decide (x ^ 2 * B ≤ y ^ 2 * A)

/-- Raw cosine score of a candidate vector against the query, kept as
the exact pair (dot product, squared norm); a zero vector gets the
conventional score 0 (represented as (0, 1)). -/
def cosScore (q v : Vec) : ℚ × ℚ :=
  if normSq v = 0 then (0, 1) else (dot q v, normSq v)

/-- Modelled from the spec: cosine similarity is the retrieval metric
(§4.3).  cosGE q a b decides cos(q,a) ≥ cos(q,b) exactly; the common
factor 1 / sqrt (normSq q) cancels on both sides. -/
def cosGE (q a b : Vec) : Bool :=
  sqrtFracGE (cosScore q a).1 (cosScore q a).2 (cosScore q b).1 (cosScore q b).2

/-- Modelled from the spec: the semantic cache compares similarity to a
threshold (§4.4).  cosAtLeast q v t decides cos(q,v) ≥ t exactly via
sign analysis and squaring. -/
def cosAtLeast (q v : Vec) (t : ℚ) : Bool :=
  let s := cosScore q v
  let x := s.1
  let AQ := s.2 * (if normSq q = 0 then 1 else normSq q)
  if 0 ≤ t then decide (0 ≤ x) && decide (t ^ 2 * AQ ≤ x ^ 2)
  else decide (0 ≤ x) || decide (x ^ 2 ≤ t ^ 2 * AQ)

/-- Insert an element into a list sorted by the boolean comparator. -/
def insertBy (le : α → α → Bool) (x : α) : List α → List α
  | [] => [x]
  | y :: ys => if le x y then x :: y :: ys else y :: insertBy le x ys

/-- Insertion sort by a boolean comparator. -/
def sortBy (le : α → α → Bool) : List α → List α
  | [] => []
  | x :: xs => insertBy le x (sortBy le xs)

/-- First maximal element of a list under a boolean comparator. -/
def bestBy (ge : α → α → Bool) : List α → Option α
  | [] => none
  | x :: xs =>
    match bestBy ge xs with
    | none => some x
    | some y => if ge x y then some x else some y

/-- Sorted, duplicate-free document id set (the spec keeps cache keys
as sorted sets for key stability, §3). -/
def sortDedup (l : List Nat) : List Nat :=
  sortBy (fun a b => decide (a ≤ b)) l.dedup

end RagCore

/-! ## Vector Index (modelled from the spec, §4.3) -/

namespace VectorIndex

open RagCore

/-- One inserted embedding: document id, chunk sequence index, vector.
Modelled from the spec: the Vector Index stores chunk embeddings per
document; no implementation exists in the repository. -/
structure IndexEntry where
  docId : Nat
  chunkSeq : Nat
  vec : Vec
deriving Repr, DecidableEq

/-- Ranking order of §3: descending cosine similarity against the
query, ties broken by ascending document id then ascending chunk
sequence index. -/
def rankLE (q : Vec) (a b : IndexEntry) : Bool :=
  if cosGE q a.vec b.vec then
    if cosGE q b.vec a.vec then
      if a.docId = b.docId then decide (a.chunkSeq ≤ b.chunkSeq)
      else decide (a.docId < b.docId)
    else true
  else false

/-- Modelled from the spec: `search(query_vector, document_ids, top_k)`
restricts candidates to the given document ids, orders them by the §3
ranking, and returns the top k (§4.3); the Vector Index has no
implementation in the repository. -/
def search (st : List IndexEntry) (q : Vec) (docIds : List Nat) (topK : Nat) :
    List IndexEntry :=
  (sortBy (rankLE q) (st.filter (fun e => docIds.contains e.docId))).take topK

end VectorIndex

/-! ## Answer Synthesizer (modelled from the spec, §4.6) -/

namespace Synthesizer

/-- Reference to a source passage: document id plus chunk sequence
index (§3). -/
structure SourceRef where
  docId : Nat
  chunkSeq : Nat
deriving Repr, DecidableEq

/-- A detected cross-document contradiction: topic label and the
conflicting claims with their source references (§3). -/
structure Contradiction where
  topic : String
  claims : List (String × SourceRef)
deriving Repr, DecidableEq

/-- Modelled from the spec: the Answer record of §3 — primary response
text, supporting details, confidence in [0,1], document references,
contradictions; the synthesizer has no implementation in the
repository. -/
structure Answer where
  primaryResponse : String
  supportingDetails : List String
  confidence : ℚ
  references : List SourceRef
  contradictions : List Contradiction
deriving Repr, DecidableEq

/-- Raw result of the generation call before the confidence policy is
applied: generated text, self-reported confidence, supporting details,
references and contradictions as parsed from the response. -/
structure GenResult where
  text : String
  confidence : ℚ
  supporting : List String
  references : List SourceRef
  contradictions : List Contradiction
deriving Repr, DecidableEq

/-- The standardized low-confidence marker of §4.6. -/
def lowConfidenceMarker : String := "insufficient evidence"

/-- Default value of the configurable confidence_threshold (§4.6, §6). -/
def defaultConfidenceThreshold : ℚ := 1 / 2

/-- Modelled from the spec: the confidence policy of §4.6 — when the
generation result reports confidence below the threshold, the
primary response is overridden with the standardized marker and the
original text is preserved in the supporting details; the synthesizer
has no implementation in the repository. -/
def applyConfidenceGate (threshold : ℚ) (g : GenResult) : Answer :=
  if g.confidence < threshold then
    { primaryResponse := lowConfidenceMarker
      supportingDetails := g.text :: g.supporting
      confidence := g.confidence
      references := g.references
      contradictions := g.contradictions }
  else
    { primaryResponse := g.text
      supportingDetails := g.supporting
      confidence := g.confidence
      references := g.references
      contradictions := g.contradictions }

end Synthesizer

/-! ## Semantic Cache (modelled from the spec, §4.4) -/

namespace Cache

open RagCore

/-- Modelled from the spec: a CacheEntry of §3 — query embedding,
sorted document id set, Answer, creation timestamp, similarity
threshold used at write time, plus the TTL governing eviction; the
semantic cache has no implementation in the repository. -/
structure CacheEntry where
  queryVec : Vec
  docIds : List Nat
  answer : Synthesizer.Answer
  createdAt : Nat
  writeThreshold : ℚ
  ttl : Nat
deriving Repr, DecidableEq

/-- Cache state: stored entries and a logical clock used to stamp
creation times; the clock advances on every store. -/
structure CacheState where
  entries : List CacheEntry
  clock : Nat
deriving Repr, DecidableEq

/-- Modelled from the spec: `store(query_vector, document_ids, answer,
ttl)` (§4.4) records the answer keyed by the normalized (sorted,
deduplicated) document id set, stamped with the current clock. -/
def store (st : CacheState) (qv : Vec) (docIds : List Nat)
    (a : Synthesizer.Answer) (ttl : Nat) (threshold : ℚ) : CacheState :=
  { entries := st.entries ++ [⟨qv, sortDedup docIds, a, st.clock, threshold, ttl⟩],
    clock := st.clock + 1 }

/-- Modelled from the spec: `invalidate(document_id)` (§4.4) removes
every entry whose document set references the id. -/
def invalidate (st : CacheState) (d : Nat) : CacheState :=
  { st with entries := st.entries.filter (fun e => !(e.docIds.contains d)) }

/-- Modelled from the spec: `lookup(query_vector, document_ids,
similarity_threshold)` (§4.4) returns the highest-similarity
unexpired entry whose document set exactly matches and whose cosine
similarity reaches the threshold; anything below is a miss. -/
def lookup (st : CacheState) (qv : Vec) (docIds : List Nat) (threshold : ℚ) :
    Option CacheEntry :=
  bestBy (fun a b => cosGE qv a.queryVec b.queryVec)
    (st.entries.filter (fun e =>
      e.docIds == sortDedup docIds && cosAtLeast qv e.queryVec threshold &&
        decide (st.clock < e.createdAt + e.ttl)))

/-- A state-changing cache operation issued after an invalidation. -/
inductive CacheOp where
  | opStore (qv : Vec) (docIds : List Nat) (a : Synthesizer.Answer)
      (ttl : Nat) (threshold : ℚ)
  | opInvalidate (d : Nat)

/-- Apply one cache operation. -/
def applyOp (st : CacheState) : CacheOp → CacheState
  | .opStore qv ids a ttl th => store st qv ids a ttl th
  | .opInvalidate d => invalidate st d

/-- Apply a sequence of cache operations in order. -/
def applyOps (st : CacheState) : List CacheOp → CacheState
  | [] => st
  | op :: ops => applyOps (applyOp st op) ops

end Cache

/-! ## Retriever (modelled from the spec, §4.5) -/

namespace Retriever

open RagCore

/-- Error raised when `retrieve` is called with an empty document set. -/
inductive RetrievalError where
  | noTargetDocuments
deriving Repr, DecidableEq

/-- Modelled from the spec: `retrieve(query, document_ids, top_k)`
(§4.5) fails with NoTargetDocuments when the document set is empty and
otherwise embeds the query and searches the Vector Index restricted to
the given ids; the retriever has no implementation in the repository.
The second component records the document ids actually handed to
`search`, witnessing that the empty-set path searches nothing. -/
def retrieve (index : List VectorIndex.IndexEntry) (embed : String → Vec)
    (query : String) (docIds : List Nat) (topK : Nat) :
    Except RetrievalError (List VectorIndex.IndexEntry) × List Nat :=
  if docIds.isEmpty then (.error .noTargetDocuments, [])
  else (.ok (VectorIndex.search index (embed query) docIds topK), docIds)

end Retriever

/-! ## Chunker (modelled from the spec, §4.1) -/

namespace Chunker

/-- Fatal configuration error of §7. -/
inductive ChunkError where
  | invalidConfig
deriving Repr, DecidableEq

/-- Modelled from the spec: a Chunk of §3 — sequence index, character
span into the source text (start position plus content), and overlap
length with the previous chunk; the chunker has no implementation in
the repository. -/
structure Chunk where
  seqIndex : Nat
  startPos : Nat
  overlapWithPrev : Nat
  content : List Char
deriving Repr, DecidableEq

/-- Chunking loop: emit the window of `target` characters at `pos`,
then advance by the stride `target - overlap` until the remaining text
fits in one window.  The fuel argument bounds the recursion and is
sufficient whenever it is at least the text length. -/
def chunkGo (text : List Char) (target overlap : Nat) :
    Nat → Nat → Nat → Nat → List Chunk
  | 0, pos, idx, ov => [⟨idx, pos, ov, (text.drop pos).take target⟩]
  | fuel + 1, pos, idx, ov =>
    if text.length ≤ pos + target then
      [⟨idx, pos, ov, (text.drop pos).take target⟩]
    else
      ⟨idx, pos, ov, (text.drop pos).take target⟩ ::
        chunkGo text target overlap fuel (pos + (target - overlap)) (idx + 1) overlap

/-- Modelled from the spec: `chunk(text, target_size, overlap)` (§4.1)
requires positive target_size and overlap with overlap < target_size,
failing with InvalidConfig otherwise, and splits the text into
overlapping windows of target_size characters advancing by
target_size - overlap; the chunker has no implementation in the
repository. -/
def chunk (text : List Char) (targetSize overlap : Int) :
    Except ChunkError (List Chunk) :=
  if 0 < targetSize ∧ 0 < overlap ∧ overlap < targetSize then
    .ok (chunkGo text targetSize.toNat overlap.toNat text.length 0 0 0)
  else .error .invalidConfig

/-- Concatenation of the non-overlapping portions of a tail of chunks:
each contributes its content with the leading `overlap` characters
(shared with its predecessor) removed. -/
def tailJoin (overlap : Nat) : List Chunk → List Char
  | [] => []
  | c :: rest => c.content.drop overlap ++ tailJoin overlap rest

/-- Concatenation of the non-overlapping portions of a chunk sequence:
the first chunk contributes all of its content, later chunks drop the
overlap shared with their predecessor. -/
def reconstruct (overlap : Nat) : List Chunk → List Char
  | [] => []
  | c :: rest => c.content ++ tailJoin overlap rest

end Chunker

/-! ## Resilient Gateway (modelled from the spec, §4.7) -/

namespace Gateway

/-- Circuit phases of §3. -/
inductive CircuitPhase where
  | closed
  | opened
  | halfOpen
deriving Repr, DecidableEq

/-- Gateway configuration (§6): consecutive-failure threshold, rolling
window length, cooldown period, retry bound and backoff base. -/
structure GatewayCfg where
  failureThreshold : Nat
  windowLen : Nat
  cooldown : Nat
  retryMaxAttempts : Nat
  retryBackoffBase : Nat
deriving Repr, DecidableEq

/-- Modelled from the spec: the per-dependency CircuitState of §3 —
phase, consecutive-failure count within the rolling window (with the
window start time), and last transition timestamp; the gateway has no
implementation in the repository. -/
structure CircuitState where
  phase : CircuitPhase
  consecutiveFailures : Nat
  windowStart : Nat
  lastTransition : Nat
deriving Repr, DecidableEq

/-- Errors surfaced by the gateway. -/
inductive GatewayError where
  | circuitOpen
  | dependencyUnavailable
deriving Repr, DecidableEq

/-- Record a failed attempt at time t: a HalfOpen trial failure reopens
the circuit; a Closed failure bumps the consecutive count within the
rolling window (restarting the window when the failure falls outside
it) and opens the circuit once the count reaches the threshold (§4.7). -/
def recordFailure (cfg : GatewayCfg) (t : Nat) (st : CircuitState) : CircuitState :=
  match st.phase with
  | .halfOpen =>
    { phase := .opened, consecutiveFailures := st.consecutiveFailures + 1,
      windowStart := st.windowStart, lastTransition := t }
  | .opened => st
  | .closed =>
    let inWindow := t ≤ st.windowStart + cfg.windowLen
    let n := if inWindow then st.consecutiveFailures + 1 else 1
    let ws := if inWindow then st.windowStart else t
    if cfg.failureThreshold ≤ n then
      { phase := .opened, consecutiveFailures := n, windowStart := ws,
        lastTransition := t }
    else
      { phase := .closed, consecutiveFailures := n, windowStart := ws,
        lastTransition := st.lastTransition }

/-- Record a successful attempt at time t: the circuit returns to (or
stays) Closed and the consecutive-failure count resets (§4.7). -/
def recordSuccess (t : Nat) (st : CircuitState) : CircuitState :=
  { phase := .closed, consecutiveFailures := 0,
    windowStart := st.windowStart, lastTransition := t }

/-- Decidable equality for gateway call results. -/
instance : DecidableEq (Except GatewayError Unit) := fun a b =>
  match a, b with
  | .ok (), .ok () => isTrue rfl
  | .error e, .error f =>
    if h : e = f then isTrue (by rw [h])
    else isFalse (by intro hc; cases hc; exact h rfl)
  | .ok _, .error _ => isFalse (by intro hc; cases hc)
  | .error _, .ok _ => isFalse (by intro hc; cases hc)

/-- Outcome of one gateway call: the result, the circuit state after
the call, and the trace of circuit phases observed at each network
attempt (so its length is the number of attempts made). -/
structure CallResult where
  result : Except GatewayError Unit
  state : CircuitState
  trace : List CircuitPhase
deriving Repr, DecidableEq

/-- Retry loop with at most `fuel` attempts; `oracle i` is the outcome
of the i-th network attempt.  Retrying stops as soon as an attempt
succeeds or the circuit opens; exponential backoff delays between
attempts have no observable effect in this untimed model. -/
def attemptLoop (cfg : GatewayCfg) (now : Nat) (oracle : Nat → Bool) :
    Nat → Nat → CircuitState → CallResult
  | 0, _, st => ⟨.error .dependencyUnavailable, st, []⟩
  | fuel + 1, i, st =>
    if oracle i then ⟨.ok (), recordSuccess now st, [st.phase]⟩
    else
      let st2 := recordFailure cfg now st
      if st2.phase = .opened then ⟨.error .dependencyUnavailable, st2, [st.phase]⟩
      else
        let r := attemptLoop cfg now oracle fuel (i + 1) st2
        ⟨r.result, r.state, st.phase :: r.trace⟩

/-- Modelled from the spec: one gateway call (§4.7).  While the circuit
is Open and the cooldown has not elapsed, the call fails immediately
with no network attempt; once the cooldown elapses the circuit moves
to HalfOpen and trial attempts proceed under the usual retry bound;
otherwise the retry loop runs in the current phase.  The gateway has
no implementation in the repository. -/
def call (cfg : GatewayCfg) (st : CircuitState) (now : Nat)
    (oracle : Nat → Bool) : CallResult :=
  if st.phase = .opened then
    if now < st.lastTransition + cfg.cooldown then ⟨.error .circuitOpen, st, []⟩
    else
      attemptLoop cfg now oracle cfg.retryMaxAttempts 0
        { phase := .halfOpen, consecutiveFailures := st.consecutiveFailures,
          windowStart := st.windowStart, lastTransition := now }
  else attemptLoop cfg now oracle cfg.retryMaxAttempts 0 st

end Gateway

/-! ## Helper lemmas -/

theorem mem_insertBy {α : Type} (le : α → α → Bool) (x a : α) (l : List α) :
    a ∈ RagCore.insertBy le x l ↔ a = x ∨ a ∈ l := by
  induction l with
  | nil => simp [RagCore.insertBy]
  | cons y ys ih =>
    unfold RagCore.insertBy
    split
    · simp [List.mem_cons]
    · simp only [List.mem_cons, ih]
      tauto

theorem mem_sortBy {α : Type} (le : α → α → Bool) (a : α) (l : List α) :
    a ∈ RagCore.sortBy le l ↔ a ∈ l := by
  induction l with
  | nil => simp [RagCore.sortBy]
  | cons y ys ih =>
    unfold RagCore.sortBy
    rw [mem_insertBy]
    simp [List.mem_cons, ih]

theorem bestBy_mem {α : Type} (ge : α → α → Bool) :
    ∀ (l : List α) (x : α), RagCore.bestBy ge l = some x → x ∈ l
  | [], x => by simp [RagCore.bestBy]
  | y :: ys, x => by
    simp only [RagCore.bestBy]
    cases h : RagCore.bestBy ge ys with
    | none =>
      intro he
      cases he
      exact List.mem_cons_self _ _
    | some z =>
      intro he
      dsimp only at he
      by_cases hg : ge y z = true
      · rw [if_pos hg] at he
        cases he
        exact List.mem_cons_self _ _
      · rw [if_neg hg] at he
        cases he
        exact List.mem_cons_of_mem _ (bestBy_mem ge ys _ h)

theorem mem_sortDedup (d : Nat) (l : List Nat) (h : d ∈ l) :
    d ∈ RagCore.sortDedup l := by
  unfold RagCore.sortDedup
  rw [mem_sortBy, List.mem_dedup]
  exact h

theorem handle_state (st : FileServer.ServerState) (req : FileServer.Request) :
    (FileServer.handle st req).state = st ∨
      ∃ d, (FileServer.handle st req).state = st ++ [d] := by
  cases req with
  | upload f now =>
    cases f with
    | none => exact Or.inl rfl
    | some f => exact Or.inr ⟨_, rfl⟩
  | listDocs => exact Or.inl rfl
  | download fid fsOk =>
    left
    simp only [FileServer.handle]
    split
    · rfl
    · split <;> rfl

theorem runReqs_take (reqs : List FileServer.Request) :
    ∀ st : FileServer.ServerState,
      (FileServer.runReqs st reqs).take st.length = st := by
  induction reqs with
  | nil => intro st; simp [FileServer.runReqs]
  | cons r rs ih =>
    intro st
    show (FileServer.runReqs (FileServer.handle st r).state rs).take st.length = st
    rcases handle_state st r with h | ⟨d, h⟩
    · rw [h]; exact ih st
    · rw [h]
      have h2 := ih (st ++ [d])
      have h3 : (FileServer.runReqs (st ++ [d]) rs).take st.length =
          ((FileServer.runReqs (st ++ [d]) rs).take (st ++ [d]).length).take
            st.length := by
        rw [List.take_take]
        congr 1
        simp [List.length_append]
      rw [h3, h2]
      exact List.take_left st [d]

theorem applyOps_clock (ops : List Cache.CacheOp) :
    ∀ st : Cache.CacheState, st.clock ≤ (Cache.applyOps st ops).clock := by
  induction ops with
  | nil => intro st; exact le_refl _
  | cons op ops ih =>
    intro st
    refine le_trans ?_ (ih (Cache.applyOp st op))
    cases op with
    | opStore qv ids a ttl th => exact Nat.le_succ _
    | opInvalidate d => exact le_refl _

theorem applyOps_entries (ops : List Cache.CacheOp) :
    ∀ (st : Cache.CacheState) (e : Cache.CacheEntry),
      e ∈ (Cache.applyOps st ops).entries →
      e ∈ st.entries ∨ st.clock ≤ e.createdAt := by
  induction ops with
  | nil => intro st e he; exact Or.inl he
  | cons op ops ih =>
    intro st e he
    rcases ih (Cache.applyOp st op) e he with h1 | h1
    · cases op with
      | opStore qv ids a ttl th =>
        rcases List.mem_append.mp h1 with h2 | h2
        · exact Or.inl h2
        · right
          have h3 : e = ⟨qv, RagCore.sortDedup ids, a, st.clock, th, ttl⟩ := by
            simpa using h2
          rw [h3]
      | opInvalidate d =>
        exact Or.inl (List.mem_filter.mp h1).1
    · right
      refine le_trans ?_ h1
      cases op with
      | opStore qv ids a ttl th => exact Nat.le_succ _
      | opInvalidate d => exact le_refl _

theorem window_drop (text : List Char) (pos target overlap : Nat) :
    ((text.drop pos).take target).drop overlap =
      (text.drop (pos + overlap)).take (target - overlap) := by
  rw [List.drop_take, List.drop_drop]

theorem tailJoin_chunkGo (text : List Char) (target overlap : Nat)
    (hov : overlap ≤ target) :
    ∀ fuel pos idx ov,
      text.length ≤ pos + target + fuel * (target - overlap) →
      Chunker.tailJoin overlap
          (Chunker.chunkGo text target overlap fuel pos idx ov) =
        text.drop (pos + overlap) := by
  intro fuel
  induction fuel with
  | zero =>
    intro pos idx ov hlen
    simp only [Chunker.chunkGo, Chunker.tailJoin, List.append_nil]
    rw [window_drop]
    apply List.take_of_length_le
    simp only [List.length_drop]
    omega
  | succ fuel ih =>
    intro pos idx ov hlen
    by_cases hfit : text.length ≤ pos + target
    · simp only [Chunker.chunkGo, if_pos hfit, Chunker.tailJoin, List.append_nil]
      rw [window_drop]
      apply List.take_of_length_le
      simp only [List.length_drop]
      omega
    · simp only [Chunker.chunkGo, if_neg hfit, Chunker.tailJoin]
      rw [ih (pos + (target - overlap)) (idx + 1) overlap
        (by rw [Nat.succ_mul] at hlen; omega)]
      rw [window_drop]
      have harith : pos + (target - overlap) + overlap =
          (pos + overlap) + (target - overlap) := by omega
      have hdd : text.drop ((pos + overlap) + (target - overlap)) =
          (text.drop (pos + overlap)).drop (target - overlap) :=
        (List.drop_drop _ _ _).symm
      rw [harith, hdd]
      exact List.take_append_drop _ _

theorem reconstruct_chunkGo (text : List Char) (target overlap : Nat)
    (hov : overlap ≤ target) (fuel : Nat)
    (hlen : text.length ≤ target + fuel * (target - overlap)) :
    Chunker.reconstruct overlap
        (Chunker.chunkGo text target overlap fuel 0 0 0) = text := by
  cases fuel with
  | zero =>
    simp only [Chunker.chunkGo, Chunker.reconstruct, Chunker.tailJoin,
      List.append_nil, List.drop_zero]
    apply List.take_of_length_le
    omega
  | succ fuel =>
    by_cases hfit : text.length ≤ 0 + target
    · simp only [Chunker.chunkGo, if_pos hfit, Chunker.reconstruct,
        Chunker.tailJoin, List.append_nil, List.drop_zero]
      apply List.take_of_length_le
      omega
    · simp only [Chunker.chunkGo, if_neg hfit, Chunker.reconstruct]
      rw [tailJoin_chunkGo text target overlap hov fuel (0 + (target - overlap))
        1 overlap (by rw [Nat.succ_mul] at hlen; omega)]
      have harith : 0 + (target - overlap) + overlap = target := by omega
      rw [harith, List.drop_zero]
      exact List.take_append_drop _ _

theorem attemptLoop_trace_no_open (cfg : Gateway.GatewayCfg) (now : Nat)
    (oracle : Nat → Bool) :
    ∀ (fuel i : Nat) (st : Gateway.CircuitState),
      st.phase ≠ Gateway.CircuitPhase.opened →
      ∀ p ∈ (Gateway.attemptLoop cfg now oracle fuel i st).trace,
        p ≠ Gateway.CircuitPhase.opened := by
  intro fuel
  induction fuel with
  | zero =>
    intro i st h p hp
    simp [Gateway.attemptLoop] at hp
  | succ fuel ih =>
    intro i st h p hp
    simp only [Gateway.attemptLoop] at hp
    by_cases ho : oracle i = true
    · rw [if_pos ho] at hp
      simp only [List.mem_singleton] at hp
      rw [hp]; exact h
    · rw [if_neg ho] at hp
      by_cases h2 : (Gateway.recordFailure cfg now st).phase =
          Gateway.CircuitPhase.opened
      · rw [if_pos h2] at hp
        simp only [List.mem_singleton] at hp
        rw [hp]; exact h
      · rw [if_neg h2] at hp
        simp only [List.mem_cons] at hp
        rcases hp with hp | hp
        · rw [hp]; exact h
        · exact ih (i + 1) _ h2 p hp

theorem attemptLoop_trace_length (cfg : Gateway.GatewayCfg) (now : Nat)
    (oracle : Nat → Bool) :
    ∀ (fuel i : Nat) (st : Gateway.CircuitState),
      (Gateway.attemptLoop cfg now oracle fuel i st).trace.length ≤ fuel := by
  intro fuel
  induction fuel with
  | zero => intro i st; simp [Gateway.attemptLoop]
  | succ fuel ih =>
    intro i st
    simp only [Gateway.attemptLoop]
    by_cases ho : oracle i = true
    · rw [if_pos ho]; simp
    · rw [if_neg ho]
      by_cases h2 : (Gateway.recordFailure cfg now st).phase =
          Gateway.CircuitPhase.opened
      · rw [if_pos h2]; simp
      · rw [if_neg h2]
        simp only [List.length_cons]
        exact Nat.succ_le_succ (ih (i + 1) _)

/-! ## Claim theorems -/

/-- C1: for every synthesized Answer, when the generation result
reports confidence below the configured confidence_threshold (default
1/2), the primary response equals the standardized low-confidence
marker and the original generated text is preserved in the supporting
details. -/
theorem C1_confidence_gate (threshold : ℚ) (g : Synthesizer.GenResult)
    (h : g.confidence < threshold) :
    (Synthesizer.applyConfidenceGate threshold g).primaryResponse =
        Synthesizer.lowConfidenceMarker ∧
      g.text ∈ (Synthesizer.applyConfidenceGate threshold g).supportingDetails ∧
      Synthesizer.defaultConfidenceThreshold = 1 / 2 := by
  unfold Synthesizer.applyConfidenceGate
  rw [if_pos h]
  exact ⟨rfl, List.mem_cons_self _ _, rfl⟩

theorem C1_confidence_gate_witness :
    (Synthesizer.applyConfidenceGate Synthesizer.defaultConfidenceThreshold
        ⟨"low confidence draft", 1 / 4, [], [], []⟩).primaryResponse =
        Synthesizer.lowConfidenceMarker ∧
      "low confidence draft" ∈ (Synthesizer.applyConfidenceGate
          Synthesizer.defaultConfidenceThreshold
          ⟨"low confidence draft", 1 / 4, [], [], []⟩).supportingDetails ∧
      Synthesizer.defaultConfidenceThreshold = 1 / 2 :=
  C1_confidence_gate Synthesizer.defaultConfidenceThreshold
    ⟨"low confidence draft", 1 / 4, [], [], []⟩
    (by norm_num [Synthesizer.defaultConfidenceThreshold])

/-- C3: with a valid configuration (positive target size and overlap,
overlap below target size), chunking succeeds and concatenating the
non-overlapping portions of the chunks in sequence order reconstructs
the input text exactly. -/
theorem C3_chunk_coverage (text : List Char) (target overlap : Int)
    (h1 : 0 < target) (h2 : 0 < overlap) (h3 : overlap < target) :
    ∃ cs, Chunker.chunk text target overlap = Except.ok cs ∧
      Chunker.reconstruct overlap.toNat cs = text := by
  refine ⟨Chunker.chunkGo text target.toNat overlap.toNat text.length 0 0 0,
    ?_, ?_⟩
  · unfold Chunker.chunk
    rw [if_pos ⟨h1, h2, h3⟩]
  · apply reconstruct_chunkGo text target.toNat overlap.toNat (by omega)
    have hs : 0 < target.toNat - overlap.toNat := by omega
    have h4 : text.length ≤ text.length * (target.toNat - overlap.toNat) :=
      Nat.le_mul_of_pos_right _ hs
    omega

theorem C3_chunk_coverage_witness :
    ∃ cs,
      Chunker.chunk ('a' :: 'b' :: 'c' :: 'd' :: 'e' :: 'f' :: []) 4 1 =
          Except.ok cs ∧
        Chunker.reconstruct (1 : Int).toNat cs =
          'a' :: 'b' :: 'c' :: 'd' :: 'e' :: 'f' :: [] :=
  C3_chunk_coverage ('a' :: 'b' :: 'c' :: 'd' :: 'e' :: 'f' :: []) 4 1
    (by decide) (by decide) (by decide)

/-- C5: an Open circuit inside its cooldown fails the call immediately
with no network attempt and no retry; a Closed circuit whose
within-window consecutive-failure count reaches the threshold
transitions to Open; no network attempt is ever made while the circuit
is Open; and the number of attempts never exceeds the configured retry
bound. -/
theorem C5_circuit_breaker (cfg : Gateway.GatewayCfg)
    (st : Gateway.CircuitState) (now : Nat) (oracle : Nat → Bool) :
    (st.phase = Gateway.CircuitPhase.opened →
      now < st.lastTransition + cfg.cooldown →
      Gateway.call cfg st now oracle =
        ⟨Except.error Gateway.GatewayError.circuitOpen, st, []⟩) ∧
    (st.phase = Gateway.CircuitPhase.closed →
      cfg.failureThreshold ≤
        (Gateway.recordFailure cfg now st).consecutiveFailures →
      (Gateway.recordFailure cfg now st).phase =
        Gateway.CircuitPhase.opened) ∧
    (∀ p ∈ (Gateway.call cfg st now oracle).trace,
      p ≠ Gateway.CircuitPhase.opened) ∧
    (Gateway.call cfg st now oracle).trace.length ≤ cfg.retryMaxAttempts := by
  refine ⟨?_, ?_, ?_, ?_⟩
  · intro h1 h2
    unfold Gateway.call
    rw [if_pos h1, if_pos h2]
  · intro hcl hth
    unfold Gateway.recordFailure at hth ⊢
    rw [hcl] at hth ⊢
    dsimp only at hth ⊢
    by_cases hw : now ≤ st.windowStart + cfg.windowLen
    · rw [if_pos hw] at hth ⊢
      by_cases ht : cfg.failureThreshold ≤ st.consecutiveFailures + 1
      · rw [if_pos ht]
      · rw [if_neg ht] at hth
        dsimp only at hth
        exact absurd hth ht
    · rw [if_neg hw] at hth ⊢
      by_cases ht : cfg.failureThreshold ≤ 1
      · rw [if_pos ht]
      · rw [if_neg ht] at hth
        dsimp only at hth
        exact absurd hth ht
  · unfold Gateway.call
    by_cases h1 : st.phase = Gateway.CircuitPhase.opened
    · rw [if_pos h1]
      by_cases h2 : now < st.lastTransition + cfg.cooldown
      · rw [if_pos h2]; intro p hp; simp at hp
      · rw [if_neg h2]
        exact attemptLoop_trace_no_open cfg now oracle _ _ _ (by simp)
    · rw [if_neg h1]
      exact attemptLoop_trace_no_open cfg now oracle _ _ _ h1
  · unfold Gateway.call
    by_cases h1 : st.phase = Gateway.CircuitPhase.opened
    · rw [if_pos h1]
      by_cases h2 : now < st.lastTransition + cfg.cooldown
      · rw [if_pos h2]; simp
      · rw [if_neg h2]
        exact attemptLoop_trace_length cfg now oracle _ _ _
    · rw [if_neg h1]
      exact attemptLoop_trace_length cfg now oracle _ _ _

theorem C5_circuit_breaker_witness :
    Gateway.call ⟨3, 5, 100, 3, 2⟩
        ⟨Gateway.CircuitPhase.opened, 3, 0, 10⟩ 50 (fun _ => false) =
      ⟨Except.error Gateway.GatewayError.circuitOpen,
        ⟨Gateway.CircuitPhase.opened, 3, 0, 10⟩, []⟩ ∧
    (Gateway.recordFailure ⟨3, 5, 100, 3, 2⟩ 50
        ⟨Gateway.CircuitPhase.closed, 2, 48, 0⟩).phase =
      Gateway.CircuitPhase.opened :=
  ⟨(C5_circuit_breaker ⟨3, 5, 100, 3, 2⟩
      ⟨Gateway.CircuitPhase.opened, 3, 0, 10⟩ 50 (fun _ => false)).1
      rfl (by decide),
    (C5_circuit_breaker ⟨3, 5, 100, 3, 2⟩
      ⟨Gateway.CircuitPhase.closed, 2, 48, 0⟩ 50 (fun _ => false)).2.1
      rfl (by decide)⟩

/-- C6: retrieve with an empty document id set fails with
NoTargetDocuments and hands no document ids to the index search. -/
theorem C6_empty_document_ids (index : List VectorIndex.IndexEntry)
    (embed : String → RagCore.Vec) (query : String) (topK : Nat)
    (docIds : List Nat) (h : docIds = []) :
    Retriever.retrieve index embed query docIds topK =
      (.error .noTargetDocuments, []) := by
  subst h; rfl

theorem C6_empty_document_ids_witness :
    Retriever.retrieve [] (fun _ => []) "What is the deductible?" [] 5 =
      (.error .noTargetDocuments, []) :=
  C6_empty_document_ids [] (fun _ => []) "What is the deductible?" 5 [] rfl

/-- C7: chunk fails with InvalidConfig whenever target_size or overlap
is not a positive integer or overlap is not smaller than target_size,
producing no chunks. -/
theorem C7_chunk_invalid_config (text : List Char) (target overlap : Int)
    (h : ¬(0 < target ∧ 0 < overlap ∧ overlap < target)) :
    Chunker.chunk text target overlap = .error .invalidConfig := by
  unfold Chunker.chunk
  rw [if_neg h]

theorem C7_chunk_invalid_config_witness :
    Chunker.chunk ('a' :: 'b' :: []) 4 4 = .error .invalidConfig :=
  C7_chunk_invalid_config ('a' :: 'b' :: []) 4 4 (by decide)

/-- C8: GET /documents responds 404 with message "No file uploaded"
exactly when the document store is empty, and 200 with the full list
otherwise; an empty store is never reported as an empty list. -/
theorem C8_list_documents (store : List MongoModel.MongoDoc) :
    (store = [] →
      MongoServer.listDocuments store =
        (404, MongoServer.DocsBody.message "No file uploaded")) ∧
    (store ≠ [] →
      MongoServer.listDocuments store = (200, MongoServer.DocsBody.docs store)) := by
  constructor
  · intro h; subst h; rfl
  · intro h
    unfold MongoServer.listDocuments
    rw [if_neg]
    simpa [List.length_eq_zero] using h

theorem C8_list_documents_witness :
    MongoServer.listDocuments [] =
        (404, MongoServer.DocsBody.message "No file uploaded") ∧
      MongoServer.listDocuments [[]] =
        (200, MongoServer.DocsBody.docs [[]]) :=
  ⟨(C8_list_documents []).1 rfl, (C8_list_documents [[]]).2 (by simp)⟩

/-- C9: a successful upload persists only originalName and mimetype:
the size value is not a schema path and is dropped, and uploadDate has
no registered default (the schema spells the option key "Default"), so
the stored document carries neither size nor uploadDate. -/
theorem C9_upload_drops_size_and_uploadDate (name mt : String) (sz : Nat) :
    MongoModel.createDoc MongoModel.documentSchema
        (MongoModel.uploadInput name mt sz) =
      [("originalName", MongoModel.JsValue.str name),
        ("mimetype", MongoModel.JsValue.str mt)] := rfl

/-- C10: the in-memory documents array is append-only: every handler
leaves it unchanged or appends exactly one entry, and after any
request sequence the original entries are still listed unchanged as a
prefix. -/
theorem C10_documents_append_only (st : FileServer.ServerState)
    (req : FileServer.Request) (reqs : List FileServer.Request) :
    ((FileServer.handle st req).state = st ∨
      ∃ d, (FileServer.handle st req).state = st ++ [d]) ∧
    (FileServer.runReqs st reqs).take st.length = st :=
  ⟨handle_state st req, runReqs_take reqs st⟩

/-- C2: every entry returned by a Vector Index search belongs to a
document whose id is among the requested document ids; no other
document's chunk ever appears in the result. -/
theorem C2_search_scoped (st : List VectorIndex.IndexEntry) (q : RagCore.Vec)
    (docIds : List Nat) (topK : Nat) (e : VectorIndex.IndexEntry)
    (h : e ∈ VectorIndex.search st q docIds topK) :
    e.docId ∈ docIds := by
  unfold VectorIndex.search at h
  have h1 := List.take_subset _ _ h
  rw [mem_sortBy] at h1
  have h2 := List.mem_filter.mp h1
  simpa using h2.2

theorem C2_search_scoped_witness :
    (⟨1, 0, [(1 : ℚ)]⟩ : VectorIndex.IndexEntry).docId ∈ [1] :=
  C2_search_scoped [⟨1, 0, [(1 : ℚ)]⟩, ⟨2, 0, [(1 : ℚ)]⟩] [(1 : ℚ)] [1] 5
    ⟨1, 0, [(1 : ℚ)]⟩ (by decide)

/-- C4: after invalidate(doc_id), no later lookup whose document set
includes doc_id returns a cache entry created before the invalidation:
any hit was created at or after the clock value at invalidation time. -/
theorem C4_cache_invalidation (st : Cache.CacheState) (d : Nat)
    (ops : List Cache.CacheOp) (qv : RagCore.Vec) (docIds : List Nat)
    (threshold : ℚ) (e : Cache.CacheEntry)
    (hd : d ∈ docIds)
    (hl : Cache.lookup (Cache.applyOps (Cache.invalidate st d) ops) qv docIds
        threshold = some e) :
    st.clock ≤ e.createdAt := by
  have hmem := bestBy_mem _ _ _ hl
  have hf := List.mem_filter.mp hmem
  have hcond := hf.2
  simp only [Bool.and_eq_true] at hcond
  have hdocs : e.docIds = RagCore.sortDedup docIds := by
    have := hcond.1.1
    exact eq_of_beq this
  have hde : d ∈ e.docIds := by
    rw [hdocs]; exact mem_sortDedup d docIds hd
  rcases applyOps_entries ops (Cache.invalidate st d) e hf.1 with h1 | h1
  · exfalso
    have h2 := (List.mem_filter.mp h1).2
    simp at h2
    exact h2 hde
  · exact h1

theorem C4_cache_invalidation_witness :
    (5 : Nat) ≤
      (⟨[(1 : ℚ)], [1], ⟨"a", [], 1, [], []⟩, 5, 9 / 10, 10⟩ :
        Cache.CacheEntry).createdAt :=
  C4_cache_invalidation ⟨[], 5⟩ 1
    [Cache.CacheOp.opStore [(1 : ℚ)] [1] ⟨"a", [], 1, [], []⟩ 10 (9 / 10)]
    [(1 : ℚ)] [1] (9 / 10) ⟨[(1 : ℚ)], [1], ⟨"a", [], 1, [], []⟩, 5, 9 / 10, 10⟩
    (by decide)
    (by
      simp [Cache.lookup, Cache.applyOps, Cache.applyOp, Cache.store,
        Cache.invalidate, RagCore.bestBy, RagCore.sortDedup, RagCore.sortBy,
        RagCore.insertBy, RagCore.cosAtLeast, RagCore.cosScore, RagCore.normSq,
        RagCore.dot, List.dedup, List.pwFilter, List.filter]
      norm_num [abs_le]
      simp [RagCore.bestBy])
